import Mathlib

/-!
Shallow embedding of `src/GOlang/function_example.go`.

The program owns one integer variable `count` (the spec's Cell), calls
`incrementValue` with a pointer to it, then `incrementValueNoPtr` with its
value, printing a label, an address and a value at several points.

Modelling choices:
* Memory is an explicit store `Addr → Int`; a Go pointer is `null` or the
  address of a cell.  Dereferencing `null` is a runtime panic, modelled with
  `Except GoPanic`.
* Go `int` on a 64-bit platform is a 64-bit two's-complement integer whose
  overflow wraps; values are `Int` normalised through `wrap64`.
* Console output is a trace of `Event`s.  Each `fmt.Println`/`fmt.Printf`
  becomes one event carrying a `Label`; `Label.text` is the exact text of the
  source's format string (without the trailing `%p`/`%d` verb).
* The runtime chooses where `count` lives and where the callee's parameter
  copy `val` lives; `Env` packages those two addresses together with the
  guarantee that two distinct live variables occupy distinct addresses.
-/

/-- A machine address (the target of a Go pointer). -/
abbrev Addr := Nat

/-- Memory: contents of each address, as a 64-bit-wrapped integer. -/
abbrev Store := Addr → Int

/-- Two's-complement wrap-around at 64 bits: Go's defined overflow semantics
for `int` on a 64-bit platform (`9223372036854775808 = 2^63`). -/
def wrap64 (z : Int) : Int :=
  (z + 9223372036854775808) % 18446744073709551616 - 9223372036854775808

/-- Write value `v` at address `a`, leaving every other address unchanged. -/
def setStore (σ : Store) (a : Addr) (v : Int) : Store :=
  fun x => if x = a then v else σ x

/-- A Go pointer value: `nil` or the address of an integer cell. -/
inductive GoPtr where
  | null : GoPtr
  | addr : Addr → GoPtr
deriving DecidableEq

/-- A runtime fault: dereferencing a nil pointer panics. -/
inductive GoPanic where
  | nilDeref : GoPanic
deriving DecidableEq

/-- The text of every `fmt.Println`/`fmt.Printf` in the source, one
constructor per distinct format string (`Label.text` recovers the text). -/
inductive Label where
  | initialState
  | variableNameCount
  | addrOfCount
  | valueOfCount
  | insideIncrementValue
  | addrInsideFn
  | addrDeref
  | valueBefore
  | valueAfter
  | addrInsideFnAfter
  | addrDerefAfter
  | afterIncrementValue
  | addrOfCountAfterInc
  | valueOfCountAfterInc
  | insideNoPtr
  | addrInsideFnAfterNoPtr
  | afterNoPtr
  | addrOfCountAfterNoPtr
  | valueOfCountAfterNoPtr
deriving DecidableEq

/-- The exact source text behind each label (format verbs elided). -/
def Label.text : Label → String
  | .initialState => "Initial state:"
  | .variableNameCount => "Variable name: count"
  | .addrOfCount => "Address of count in memory"
  | .valueOfCount => "Value of count"
  | .insideIncrementValue => "\nInside incrementValue function (pointer version):"
  | .addrInsideFn => "Address of variable inside function"
  | .addrDeref => "Address where the value is stored (dereferenced pointer)"
  | .valueBefore => "Value before increment"
  | .valueAfter => "Value after increment"
  | .addrInsideFnAfter => "Address of variable inside function after increment (still same pointer address)"
  | .addrDerefAfter => "Address where the value is stored after increment (still same memory location)"
  | .afterIncrementValue => "\nAfter incrementValue function (pointer version):"
  | .addrOfCountAfterInc => "Address of count in memory (after incrementValue)"
  | .valueOfCountAfterInc => "Value of count (after incrementValue)"
  | .insideNoPtr => "\nInside incrementValueNoPtr function (no pointer version):"
  | .addrInsideFnAfterNoPtr => "Address of variable inside function after increment (still same address of copy)"
  | .afterNoPtr => "\nAfter incrementValueNoPtr function (no pointer version):"
  | .addrOfCountAfterNoPtr => "Address of count in memory (after incrementValueNoPtr)"
  | .valueOfCountAfterNoPtr => "Value of count (after incrementValueNoPtr)"

/-- One unit of console output: a bare line, a `%p` line (label plus an
address), or a `%d` line (label plus an integer value). -/
inductive Event where
  | line : Label → Event
  | addrOut : Label → Addr → Event
  | intOut : Label → Int → Event
deriving DecidableEq

/-- `incrementValue(valPtr *int)`: prints the pointer, the dereferenced
address and the value, does `*valPtr++`, prints again.  A nil argument
faults at the first dereference (`&*valPtr`). -/
def incrementValue (valPtr : GoPtr) (σ : Store) :
    Except GoPanic (Store × List Event) :=
  match valPtr with
  | .null => .error .nilDeref
  | .addr a =>
    let σ' := setStore σ a (wrap64 (σ a + 1))
    .ok (σ',
      [Event.line .insideIncrementValue,
       Event.addrOut .addrInsideFn a,
       Event.addrOut .addrDeref a,
       Event.intOut .valueBefore (σ a),
       Event.intOut .valueAfter (σ' a),
       Event.addrOut .addrInsideFnAfter a,
       Event.addrOut .addrDerefAfter a])

/-- `incrementValueNoPtr(val int)`: the parameter `val` is a fresh copy
living at `copyAddr`, a runtime-chosen address distinct from every live
variable of the caller.  The function initialises the copy, prints its
address and value, does `val++` on the copy, and prints again.  It never
receives, reads or writes any other address. -/
def incrementValueNoPtr (copyAddr : Addr) (val : Int) (σ : Store) :
    Store × List Event :=
  let σ₁ := setStore σ copyAddr val
  let σ₂ := setStore σ₁ copyAddr (wrap64 (σ₁ copyAddr + 1))
  (σ₂,
    [Event.line .insideNoPtr,
     Event.addrOut .addrInsideFn copyAddr,
     Event.intOut .valueBefore (σ₁ copyAddr),
     Event.intOut .valueAfter (σ₂ copyAddr),
     Event.addrOut .addrInsideFnAfterNoPtr copyAddr])

/-- The address layout the runtime picks for a run of `main`: where `count`
lives and where `incrementValueNoPtr`'s parameter copy lives.  Distinct live
variables occupy distinct addresses. -/
structure Env where
  countAddr : Addr
  copyAddr : Addr
  ne : countAddr ≠ copyAddr

/-- `main()`: `count := 10`; report address and value; `incrementValue(&count)`;
report; `incrementValueNoPtr(count)`; report.  Returns the final store and
the full output trace, or a panic (no panic is in fact reachable). -/
def goMain (env : Env) : Except GoPanic (Store × List Event) :=
  let σ₁ := setStore (fun _ => 0) env.countAddr 10
  let ev₀ :=
    [Event.line .initialState,
     Event.line .variableNameCount,
     Event.addrOut .addrOfCount env.countAddr,
     Event.intOut .valueOfCount (σ₁ env.countAddr)]
  match incrementValue (.addr env.countAddr) σ₁ with
  | .error e => .error e
  | .ok (σ₂, evF) =>
    let ev₁ :=
      [Event.line .afterIncrementValue,
       Event.addrOut .addrOfCountAfterInc env.countAddr,
       Event.intOut .valueOfCountAfterInc (σ₂ env.countAddr)]
    let res := incrementValueNoPtr env.copyAddr (σ₂ env.countAddr) σ₂
    let ev₂ :=
      [Event.line .afterNoPtr,
       Event.addrOut .addrOfCountAfterNoPtr env.countAddr,
       Event.intOut .valueOfCountAfterNoPtr (res.1 env.countAddr)]
    .ok (res.1, ev₀ ++ evF ++ ev₁ ++ res.2 ++ ev₂)

/-- The output trace of a completed run (empty on a panic, where the Go
runtime would print a stack trace instead). -/
def traceOf : Except GoPanic (Store × List Event) → List Event
  | .ok (_, t) => t
  | .error _ => []

/-- The memory left by a completed run. -/
def finalStoreOf : Except GoPanic (Store × List Event) → Store
  | .ok (σ, _) => σ
  | .error _ => fun _ => 0

/-- Process exit code: 0 on normal return from `main`, 2 on a Go panic. -/
def exitCode : Except GoPanic (Store × List Event) → Nat
  | .ok _ => 0
  | .error _ => 2

/-- `n` repeated calls `incrementValue(&cell)` on the cell at `a`. -/
def iterInc (a : Addr) : Nat → Store → Store
  | 0, σ => σ
  | n + 1, σ => iterInc a n (finalStoreOf (incrementValue (.addr a) σ))

/-- `n` repeated calls `incrementValueNoPtr(cell)` passing the current value
of the cell at `a`, the copy living at `copyAddr` each time. -/
def iterNoPtr (copyAddr a : Addr) : Nat → Store → Store
  | 0, σ => σ
  | n + 1, σ => iterNoPtr copyAddr a n (incrementValueNoPtr copyAddr (σ a) σ).1

/-- Forget the addresses in a trace, keeping labels and integer values: what
the output looks like with the platform-dependent `%p` payloads erased. -/
def scrubAddr : Event → Event
  | Event.addrOut l _ => Event.addrOut l 0
  | e => e

/-- The addresses a trace reports under the given labels, in order. -/
def reportedAddrs (ls : List Label) (tr : List Event) : List Addr :=
  tr.filterMap fun e =>
    match e with
    | Event.addrOut l x => if l ∈ ls then some x else none
    | _ => none

/-- The labels under which `main` itself (the driver) prints `&count`. -/
def driverAddrLabels : List Label :=
  [.addrOfCount, .addrOfCountAfterInc, .addrOfCountAfterNoPtr]

/-! ## Helper lemmas -/

/-- `wrap64` is the identity on values already in 64-bit signed range. -/
theorem wrap64_small (z : Int) (h₁ : -9223372036854775808 ≤ z)
    (h₂ : z < 9223372036854775808) : wrap64 z = z := by
  unfold wrap64
  omega

/-- `incrementValueNoPtr` writes only the parameter copy's slot: every other
address keeps its value. -/
theorem noPtr_frame (copyAddr : Addr) (v : Int) (σ : Store) (x : Addr)
    (h : x ≠ copyAddr) : (incrementValueNoPtr copyAddr v σ).1 x = σ x := by
  simp [incrementValueNoPtr, setStore, h]

/-- Repeatedly calling `incrementValueNoPtr` never moves the cell at `a`,
provided the cell is not the parameter copy's slot. -/
theorem iterNoPtr_fixed (b a : Addr) (n : Nat) (σ : Store) (h : a ≠ b) :
    iterNoPtr b a n σ a = σ a := by
  induction n generalizing σ with
  | zero => rfl
  | succ n ih =>
      simp only [iterNoPtr]
      rw [ih, noPtr_frame b (σ a) σ a h]

/-- One `incrementValue` call through a non-nil pointer adds one (wrapped)
to the referenced cell. -/
theorem incValue_step (a : Addr) (σ : Store) :
    finalStoreOf (incrementValue (GoPtr.addr a) σ) a = wrap64 (σ a + 1) := by
  simp [incrementValue, finalStoreOf, setStore]

/-- In-range characterisation of `n` repeated `incrementValue` calls. -/
theorem iterInc_adds (a : Addr) (n : Nat) (σ : Store)
    (h₁ : -9223372036854775808 ≤ σ a)
    (h₂ : σ a + n < 9223372036854775808) :
    iterInc a n σ a = σ a + n := by
  induction n generalizing σ with
  | zero => simp [iterInc]
  | succ n ih =>
      have hstep : finalStoreOf (incrementValue (GoPtr.addr a) σ) a = σ a + 1 := by
        rw [incValue_step, wrap64_small] <;> omega
      simp only [iterInc]
      rw [ih (finalStoreOf (incrementValue (GoPtr.addr a) σ)) (by rw [hstep]; omega)
        (by rw [hstep]; push_cast at h₂ ⊢; omega), hstep]
      push_cast
      ring

/-! ## C1: mutate-via-reference adds one -/

/-- C1 (amended): for every cell value below the 64-bit maximum, one
`incrementValue` call through a pointer to the cell leaves the cell holding
exactly `v + 1`; at the maximum, Go's wrapping `int` overflow applies. -/
theorem incrementValue_adds_one (a : Addr) (σ : Store)
    (h₁ : -9223372036854775808 ≤ σ a) (h₂ : σ a < 9223372036854775807) :
    finalStoreOf (incrementValue (GoPtr.addr a) σ) a = σ a + 1 := by
  rw [incValue_step, wrap64_small] <;> omega

/-- C1 witness: a cell holding 10 holds 11 after the call. -/
theorem incrementValue_adds_one_witness :
    -9223372036854775808 ≤ ((fun _ => (10 : Int)) 0) ∧
    ((fun _ => (10 : Int)) 0) < 9223372036854775807 ∧
    finalStoreOf (incrementValue (GoPtr.addr 0) (fun _ => (10 : Int))) 0 = 10 + 1 :=
  ⟨by decide, by decide,
    incrementValue_adds_one 0 (fun _ => (10 : Int)) (by decide) (by decide)⟩

/-- C1 counterexample: with the cell holding the maximum 64-bit `int`
9223372036854775807, the call does not leave `v + 1` (it wraps to the
minimum), so the claim is false for that `v`. -/
theorem incrementValue_max_wraps :
    ¬ (finalStoreOf
        (incrementValue (GoPtr.addr 0) (fun _ => (9223372036854775807 : Int))) 0 =
      9223372036854775807 + 1) := by decide

/-! ## C2: mutate-via-copy leaves the caller's state unchanged -/

/-- C2: `incrementValueNoPtr` modifies no state outside the call: every
address other than the transient parameter copy's slot — in particular the
caller's cell — keeps its value, whatever value was passed. -/
theorem noPtr_leaves_caller_unchanged (copyAddr : Addr) (v : Int) (σ : Store)
    (x : Addr) (h : x ≠ copyAddr) :
    (incrementValueNoPtr copyAddr v σ).1 x = σ x :=
  noPtr_frame copyAddr v σ x h

/-- C2 witness: a caller cell at address 0 holding 7 still holds 7 after
`incrementValueNoPtr` with copy slot 1 is passed 5. -/
theorem noPtr_leaves_caller_unchanged_witness :
    (0 : Addr) ≠ 1 ∧
    (incrementValueNoPtr 1 5 (fun _ => (7 : Int))).1 0 = 7 :=
  ⟨by decide, noPtr_leaves_caller_unchanged 1 5 (fun _ => (7 : Int)) 0 (by decide)⟩

/-! ## C5: mutate-via-copy is idempotent for the caller's cell -/

/-- C5: for every value in the cell and every number `n` of repeated
`incrementValueNoPtr` calls passing the cell's current value, the caller's
cell holds the same value after `n` calls as after one call. -/
theorem noPtr_idempotent (b a : Addr) (n : Nat) (σ : Store) (h : a ≠ b) :
    iterNoPtr b a n σ a = iterNoPtr b a 1 σ a := by
  rw [iterNoPtr_fixed b a n σ h, iterNoPtr_fixed b a 1 σ h]

/-- C5 witness: five calls leave a cell holding 11 exactly where one call
does. -/
theorem noPtr_idempotent_witness :
    (0 : Addr) ≠ 1 ∧
    iterNoPtr 1 0 5 (fun _ => (11 : Int)) 0 = iterNoPtr 1 0 1 (fun _ => (11 : Int)) 0 :=
  ⟨by decide, noPtr_idempotent 1 0 5 (fun _ => (11 : Int)) (by decide)⟩

/-! ## C6: mutate-via-reference is not idempotent -/

/-- C6 (amended): as long as `v + n` stays within the 64-bit `int` range,
`n` repeated `incrementValue` calls leave the cell holding `v + n` — beyond
the maximum the value wraps — and for `n ≥ 2` the cell after `n` calls
differs from the cell after one call, so the operation is not idempotent. -/
theorem incrementValue_iterated (a : Addr) (σ : Store) (n : Nat)
    (h₁ : -9223372036854775808 ≤ σ a)
    (h₂ : σ a + n < 9223372036854775808) :
    iterInc a n σ a = σ a + n ∧
    (2 ≤ n → iterInc a n σ a ≠ iterInc a 1 σ a) := by
  refine ⟨iterInc_adds a n σ h₁ h₂, fun hn => ?_⟩
  rw [iterInc_adds a n σ h₁ h₂, iterInc_adds a 1 σ h₁ (by push_cast at h₂ ⊢; omega)]
  push_cast at h₂ ⊢
  omega

/-- C6 witness: three calls on a cell holding 10 leave 13, not the 11 that
one call leaves. -/
theorem incrementValue_iterated_witness :
    -9223372036854775808 ≤ ((fun _ => (10 : Int)) 0) ∧
    ((fun _ => (10 : Int)) 0) + (3 : Nat) < 9223372036854775808 ∧
    (iterInc 0 3 (fun _ => (10 : Int)) 0 = (fun _ => (10 : Int)) 0 + (3 : Nat) ∧
      (2 ≤ 3 → iterInc 0 3 (fun _ => (10 : Int)) 0 ≠ iterInc 0 1 (fun _ => (10 : Int)) 0)) :=
  ⟨by decide, by decide,
    incrementValue_iterated 0 (fun _ => (10 : Int)) 3 (by decide) (by decide)⟩

/-- C6 counterexample: starting from the maximum 64-bit `int`, one call does
not leave `v + 1` (the value wraps), so "the Cell holds `v + n`" fails for
`v = 9223372036854775807`, `n = 1`. -/
theorem incrementValue_iter_wraps :
    ¬ (iterInc 0 1 (fun _ => (9223372036854775807 : Int)) 0 =
      9223372036854775807 + (1 : Nat)) := by decide

/-- The only wrapped value a run of `main` produces in range: `wrap64` fixes 11. -/
theorem wrap_eleven : wrap64 11 = 11 := by decide

/-! ## C3: the driver's value trajectory -/

/-- C3: on every run, the driver reports the cell at 10 initially, at 11
after `incrementValue(&count)`, and still at 11 after
`incrementValueNoPtr(count)`; the final store indeed holds 11 in the cell. -/
theorem main_trajectory (env : Env) :
    Event.intOut .valueOfCount 10 ∈ traceOf (goMain env) ∧
    Event.intOut .valueOfCountAfterInc 11 ∈ traceOf (goMain env) ∧
    Event.intOut .valueOfCountAfterNoPtr 11 ∈ traceOf (goMain env) ∧
    finalStoreOf (goMain env) env.countAddr = 11 := by
  have hne := env.ne
  simp [goMain, incrementValue, incrementValueNoPtr, traceOf, finalStoreOf,
    setStore, hne, wrap_eleven]

/-! ## C4: the cell's address is stable across the run -/

/-- C4: the three addresses the driver itself prints for `count` are all the
cell's one address, and the addresses `incrementValue` prints for the
dereferenced pointer (before and after the increment) are that same address:
neither call moves the caller's storage location. -/
theorem driver_addr_stable (env : Env) :
    reportedAddrs driverAddrLabels (traceOf (goMain env)) =
      [env.countAddr, env.countAddr, env.countAddr] ∧
    Event.addrOut .addrDeref env.countAddr ∈ traceOf (goMain env) ∧
    Event.addrOut .addrDerefAfter env.countAddr ∈ traceOf (goMain env) := by
  have hne := env.ne
  simp [goMain, incrementValue, incrementValueNoPtr, traceOf, setStore, hne,
    reportedAddrs, driverAddrLabels, List.filterMap]

/-! ## C7: each checkpoint reports a label, the cell's address and its value -/

/-- C7: the output contains, for each of the four checkpoints at which the
Cell is reported (initial state, inside `incrementValue`, after
`incrementValue`, after `incrementValueNoPtr`), a label line, an address
line carrying the cell's address, and a value line carrying the cell's
integer value current at that checkpoint (10, 10, 11 and 11). -/
theorem four_checkpoints_report (env : Env) :
    Event.line .initialState ∈ traceOf (goMain env) ∧
    Event.addrOut .addrOfCount env.countAddr ∈ traceOf (goMain env) ∧
    Event.intOut .valueOfCount 10 ∈ traceOf (goMain env) ∧
    Event.line .insideIncrementValue ∈ traceOf (goMain env) ∧
    Event.addrOut .addrInsideFn env.countAddr ∈ traceOf (goMain env) ∧
    Event.intOut .valueBefore 10 ∈ traceOf (goMain env) ∧
    Event.line .afterIncrementValue ∈ traceOf (goMain env) ∧
    Event.addrOut .addrOfCountAfterInc env.countAddr ∈ traceOf (goMain env) ∧
    Event.intOut .valueOfCountAfterInc 11 ∈ traceOf (goMain env) ∧
    Event.line .afterNoPtr ∈ traceOf (goMain env) ∧
    Event.addrOut .addrOfCountAfterNoPtr env.countAddr ∈ traceOf (goMain env) ∧
    Event.intOut .valueOfCountAfterNoPtr 11 ∈ traceOf (goMain env) := by
  have hne := env.ne
  simp [goMain, incrementValue, incrementValueNoPtr, traceOf, setStore, hne,
    wrap_eleven]

/-! ## C8: normal termination with exit code 0 -/

/-- C8: `main` takes no input beyond the runtime's address layout, always
returns normally (no panic, `os.Exit` or other exit path exists in the
program), and the process exit code is 0. -/
theorem main_exit_zero (env : Env) :
    exitCode (goMain env) = 0 ∧ ∃ p, goMain env = Except.ok p :=
  ⟨rfl, ⟨_, rfl⟩⟩

/-! ## C9: determinism of the output -/

/-- C9 (amended): the program is deterministic given its fixed input except
for the printed addresses, which the runtime chooses: any two runs print
the same lines with the same labels and the same integer values, the `%p`
payloads being the only possible difference. -/
theorem deterministic_up_to_addresses (e₁ e₂ : Env) :
    (traceOf (goMain e₁)).map scrubAddr = (traceOf (goMain e₂)).map scrubAddr := by
  simp [goMain, incrementValue, incrementValueNoPtr, traceOf, scrubAddr,
    setStore, e₁.ne, e₂.ne, wrap_eleven]

/-- C9 counterexample: two runs whose address layouts differ print different
text — the full output, addresses included, is not the same on every run. -/
theorem output_varies_with_layout :
    traceOf (goMain ⟨0, 1, by decide⟩) ≠ traceOf (goMain ⟨2, 3, by decide⟩) := by
  decide

/-! ## C10: the nil-pointer fault and its unreachability -/

/-- C10: `incrementValue` dereferences its argument with no nil guard — on
the nil pointer it faults instead of returning, for every store — while the
driver's actual call passes the address of its own cell, so the fault branch
is unreachable and every run of `main` completes normally. -/
theorem incrementValue_nil_guard :
    (∀ σ : Store, incrementValue GoPtr.null σ = Except.error GoPanic.nilDeref) ∧
    (∀ env : Env, ∃ p, goMain env = Except.ok p) :=
  ⟨fun _ => rfl, fun _ => ⟨_, rfl⟩⟩
